import Mathlib

/-!
Shallow embedding of the live event stream engine of simple-sql-profiler:
the bounded event buffer, the free-text and structured condition evaluators,
the view projection pipeline (text filter, structured filter, deduplication),
and the selection / auto-scroll controller, translated from
`src/lib/types.ts` (App component) and `src/lib/advancedFilters.ts`.

JavaScript numbers are modelled by `JSNum` (NaN, +Infinity, -Infinity, or a
finite rational); strings by Lean `String`, with the JavaScript string
operations (`toLowerCase`, `includes`, `startsWith`, `endsWith`, first-match
`replace`) embedded as functions over the character list.  `Date.parse` is
modelled by the ECMA-262 Date Time String Format (ISO 8601) with all times
taken as UTC; strings outside that format parse to NaN.
-/

set_option autoImplicit false

namespace SqlProfiler

/-- Model of a JavaScript number: NaN, the two infinities, or a finite value
(modelled as an exact rational; double rounding is not modelled). -/
inductive JSNum where
  | nan
  | posInf
  | negInf
  | fin (q : ℚ)
  deriving DecidableEq, Repr

/-- Model of `Number.isNaN`. -/
def JSNum.isNaN : JSNum → Bool
  | .nan => true
  | _ => false

/-- Model of JavaScript strict equality `===` on numbers. -/
def jsEq : JSNum → JSNum → Bool
  | .fin a, .fin b => a = b
  | .posInf, .posInf => true
  | .negInf, .negInf => true
  | _, _ => false

/-- Model of JavaScript `<` on numbers (false whenever either side is NaN). -/
def jsLt : JSNum → JSNum → Bool
  | .nan, _ => false
  | _, .nan => false
  | .negInf, .negInf => false
  | .negInf, _ => true
  | _, .negInf => false
  | .posInf, _ => false
  | .fin _, .posInf => true
  | .fin a, .fin b => a < b

/-- Model of JavaScript `<=` on numbers (false whenever either side is NaN). -/
def jsLe (a b : JSNum) : Bool :=
  jsLt a b || jsEq a b

/-- Characters treated as whitespace by JavaScript string-to-number coercion. -/
def isJsWhitespace (c : Char) : Bool :=
  c = ' ' || c = '\t' || c = '\n' || c = '\r' || c = '\x0b' || c = '\x0c' || c = '\xa0'

/-- Strip leading and trailing JavaScript whitespace, as `Number(string)` does. -/
def trimJS (s : String) : List Char :=
  ((s.toList.dropWhile isJsWhitespace).reverse.dropWhile isJsWhitespace).reverse

/-- Decimal digit value of a character, if it is one. -/
def digitVal? (c : Char) : Option Nat :=
  if '0' ≤ c ∧ c ≤ '9' then some (c.toNat - '0'.toNat) else none

/-- Hexadecimal digit value of a character, if it is one. -/
def hexVal? (c : Char) : Option Nat :=
  if '0' ≤ c ∧ c ≤ '9' then some (c.toNat - '0'.toNat)
  else if 'a' ≤ c ∧ c ≤ 'f' then some (c.toNat - 'a'.toNat + 10)
  else if 'A' ≤ c ∧ c ≤ 'F' then some (c.toNat - 'A'.toNat + 10)
  else none

/-- Octal digit value of a character, if it is one. -/
def octVal? (c : Char) : Option Nat :=
  if '0' ≤ c ∧ c ≤ '7' then some (c.toNat - '0'.toNat) else none

/-- Binary digit value of a character, if it is one. -/
def binVal? (c : Char) : Option Nat :=
  if c = '0' then some 0 else if c = '1' then some 1 else none

/-- Split a character list into its longest run of leading decimal digits
(as digit values) and the rest. -/
def takeDigits : List Char → List Nat × List Char
  | [] => ([], [])
  | c :: cs =>
    match digitVal? c with
    | some d =>
      let p := takeDigits cs
      (d :: p.1, p.2)
    | none => ([], c :: cs)

/-- Value of a big-endian list of decimal digit values. -/
def digitsToNat (ds : List Nat) : Nat :=
  ds.foldl (fun a d => a * 10 + d) 0

/-- Value of a big-endian digit-value list in the given base, onto an accumulator;
fails on a non-digit. -/
def digitsValIn (valOf : Char → Option Nat) (base : Nat) : Nat → List Char → Option Nat
  | acc, [] => some acc
  | acc, c :: t =>
    match valOf c with
    | some d => digitsValIn valOf base (acc * base + d) t
    | none => none

/-- Parse a non-empty all-digit string in the given base. -/
def parseRadixNum (valOf : Char → Option Nat) (base : Nat) : List Char → Option Nat
  | [] => none
  | l => digitsValIn valOf base 0 l

/-- Ten to an integer power, as a rational. -/
def pow10 (e : Int) : ℚ :=
  if 0 ≤ e then (10 : ℚ) ^ e.toNat else 1 / (10 : ℚ) ^ (-e).toNat

/-- Parse the exponent suffix of a JavaScript decimal literal (empty, or
`e`/`E`, optional sign, then one or more digits consuming the whole rest). -/
def parseExp : List Char → Option Int
  | [] => some 0
  | c :: t =>
    if c = 'e' ∨ c = 'E' then
      match t with
      | '+' :: u =>
        let p := takeDigits u
        if p.1.isEmpty ∨ ¬p.2.isEmpty then none else some (digitsToNat p.1 : Int)
      | '-' :: u =>
        let p := takeDigits u
        if p.1.isEmpty ∨ ¬p.2.isEmpty then none else some (-(digitsToNat p.1 : Int))
      | u =>
        let p := takeDigits u
        if p.1.isEmpty ∨ ¬p.2.isEmpty then none else some (digitsToNat p.1 : Int)
    else none

/-- Parse an unsigned JavaScript decimal literal (`digits`, `digits.digits`,
`.digits`, `digits.`, each with an optional exponent), consuming the whole
string. -/
def parseDecimal (l : List Char) : Option ℚ :=
  let ipp := takeDigits l
  match ipp.2 with
  | '.' :: t =>
    let fpp := takeDigits t
    if ipp.1.isEmpty ∧ fpp.1.isEmpty then none
    else
      match parseExp fpp.2 with
      | some e => some ((digitsToNat (ipp.1 ++ fpp.1) : ℚ) * pow10 (e - fpp.1.length))
      | none => none
  | r =>
    if ipp.1.isEmpty then none
    else
      match parseExp r with
      | some e => some ((digitsToNat ipp.1 : ℚ) * pow10 e)
      | none => none

/-- Parse an unsigned JavaScript numeric body: `Infinity` or a decimal literal. -/
def parseUnsigned (l : List Char) : Option JSNum :=
  if l = "Infinity".toList then some .posInf
  else (parseDecimal l).map .fin

/-- Model of JavaScript `Number(string)`: trims whitespace, maps the empty
string to 0, accepts `Infinity` with optional sign, signed decimal literals,
and unsigned hexadecimal / octal / binary literals; anything else is NaN. -/
def jsNumberOfString (s : String) : JSNum :=
  match trimJS s with
  | [] => .fin 0
  | '0' :: 'x' :: t => ((parseRadixNum hexVal? 16 t).map fun n => .fin (n : ℚ)).getD .nan
  | '0' :: 'X' :: t => ((parseRadixNum hexVal? 16 t).map fun n => .fin (n : ℚ)).getD .nan
  | '0' :: 'o' :: t => ((parseRadixNum octVal? 8 t).map fun n => .fin (n : ℚ)).getD .nan
  | '0' :: 'O' :: t => ((parseRadixNum octVal? 8 t).map fun n => .fin (n : ℚ)).getD .nan
  | '0' :: 'b' :: t => ((parseRadixNum binVal? 2 t).map fun n => .fin (n : ℚ)).getD .nan
  | '0' :: 'B' :: t => ((parseRadixNum binVal? 2 t).map fun n => .fin (n : ℚ)).getD .nan
  | '+' :: t => (parseUnsigned t).getD .nan
  | '-' :: t =>
    match parseUnsigned t with
    | some .posInf => .negInf
    | some (.fin q) => .fin (-q)
    | _ => .nan
  | l => (parseUnsigned l).getD .nan

/-- Does the second character list start with the first one?  Model of
JavaScript `String.prototype.startsWith` over characters. -/
def seqStarts : List Char → List Char → Bool
  | [], _ => true
  | _ :: _, [] => false
  | c :: cs, d :: ds => c = d && seqStarts cs ds

/-- Model of JavaScript `String.prototype.endsWith` over characters. -/
def seqEnds (pat l : List Char) : Bool :=
  seqStarts pat.reverse l.reverse

/-- Model of JavaScript `String.prototype.includes` over characters. -/
def seqHas (pat : List Char) : List Char → Bool
  | [] => seqStarts pat []
  | c :: t => seqStarts pat (c :: t) || seqHas pat t

/-- Lower-cased character list of a string; model of
`String.prototype.toLowerCase` (ASCII range). -/
def lcChars (s : String) : List Char :=
  s.toList.map Char.toLower

/-- Model of JavaScript `value.replace(" ", "T")`: replace only the first
space character, if any. -/
def replaceFirstSpace : List Char → List Char
  | [] => []
  | c :: t => if c = ' ' then 'T' :: t else c :: replaceFirstSpace t

/-- The filter operators of `advancedFilters.ts` (`AdvancedFilterOperator`). -/
inductive FilterOperator where
  | contains
  | not_contains
  | equals
  | not_equals
  | starts_with
  | ends_with
  | gt
  | gte
  | lt
  | lte
  deriving DecidableEq, Repr

/-- The semantic type of a filter column (`AdvancedFilterFieldType`). -/
inductive FieldType where
  | string
  | number
  | datetime
  deriving DecidableEq, Repr

/-- The keys of `QueryEvent` (`keyof QueryEvent` in `types.ts`). -/
inductive Column where
  | id
  | session_id
  | start_time
  | event_name
  | database_name
  | cpu_time
  | elapsed_time
  | physical_reads
  | writes
  | logical_reads
  | row_count
  | sql_text
  | current_statement
  | login_name
  | host_name
  | program_name
  | captured_at
  | event_status
  deriving DecidableEq, Repr

/-- Column type per `ADVANCED_FILTER_COLUMNS`; keys absent from that table
(`id`, `event_status`) fall back to type "string" via `getColumnDefinition`. -/
def columnType : Column → FieldType
  | .event_name => .string
  | .start_time => .datetime
  | .session_id => .number
  | .database_name => .string
  | .sql_text => .string
  | .current_statement => .string
  | .elapsed_time => .number
  | .cpu_time => .number
  | .logical_reads => .number
  | .physical_reads => .number
  | .writes => .number
  | .row_count => .number
  | .login_name => .string
  | .host_name => .string
  | .program_name => .string
  | .captured_at => .datetime
  | .id => .string
  | .event_status => .string

/-- The string-typed operator options (`STRING_OPERATOR_OPTIONS`). -/
def stringOperators : List FilterOperator :=
  [.contains, .not_contains, .equals, .not_equals, .starts_with, .ends_with]

/-- The number/datetime operator options (`COMPARABLE_OPERATOR_OPTIONS`). -/
def comparableOperators : List FilterOperator :=
  [.equals, .not_equals, .gt, .gte, .lt, .lte]

/-- Model of `getOperatorOptions` (option labels dropped). -/
def getOperatorOptions (t : FieldType) : List FilterOperator :=
  if t = .string then stringOperators else comparableOperators

/-- Model of `isOperatorSupported`. -/
def isOperatorSupported (t : FieldType) (op : FilterOperator) : Bool :=
  (getOperatorOptions t).contains op

/-- The `QueryEvent` record of `types.ts`.  Fields typed `number` in
TypeScript are modelled as `JSNum` (a JavaScript number may be NaN or
infinite); fields typed `string` as `String`.  `event_status` has the literal
type `"completed"` in the source but is carried as a string. -/
structure QueryEvent where
  id : String
  session_id : JSNum
  start_time : String
  event_name : String
  database_name : String
  cpu_time : JSNum
  elapsed_time : JSNum
  physical_reads : JSNum
  writes : JSNum
  logical_reads : JSNum
  row_count : JSNum
  sql_text : String
  current_statement : String
  login_name : String
  host_name : String
  program_name : String
  captured_at : String
  event_status : String
  deriving DecidableEq, Repr

/-- An `AdvancedFilterCondition` (the generated `id` is irrelevant to
evaluation and omitted). -/
structure FilterCondition where
  column : Column
  operator : FilterOperator
  value : String
  deriving DecidableEq, Repr

/-- A JavaScript value read off a `QueryEvent` field: a string or a number. -/
inductive ColumnValue where
  | str (s : String)
  | num (n : JSNum)
  deriving DecidableEq, Repr

/-- Field lookup `query[filter.column]`. -/
def columnValue (q : QueryEvent) : Column → ColumnValue
  | .id => .str q.id
  | .session_id => .num q.session_id
  | .start_time => .str q.start_time
  | .event_name => .str q.event_name
  | .database_name => .str q.database_name
  | .cpu_time => .num q.cpu_time
  | .elapsed_time => .num q.elapsed_time
  | .physical_reads => .num q.physical_reads
  | .writes => .num q.writes
  | .logical_reads => .num q.logical_reads
  | .row_count => .num q.row_count
  | .sql_text => .str q.sql_text
  | .current_statement => .str q.current_statement
  | .login_name => .str q.login_name
  | .host_name => .str q.host_name
  | .program_name => .str q.program_name
  | .captured_at => .str q.captured_at
  | .event_status => .str q.event_status

/-- Model of `compareStrings`: lower-case both sides, then dispatch on the
operator; unknown operators fall to the default branch returning false. -/
def compareStrings (leftInput rightInput : String) (op : FilterOperator) : Bool :=
  let left := lcChars leftInput
  let right := lcChars rightInput
  match op with
  | .contains => seqHas right left
  | .not_contains => !seqHas right left
  | .equals => left = right
  | .not_equals => !(left = right : Bool)
  | .starts_with => seqStarts right left
  | .ends_with => seqEnds right left
  | _ => false

/-- Model of `compareNumbers`: false if either side is NaN, then dispatch on
the operator; unknown operators fall to the default branch returning false. -/
def compareNumbers (left right : JSNum) (op : FilterOperator) : Bool :=
  if left.isNaN || right.isNaN then false
  else
    match op with
    | .equals => jsEq left right
    | .not_equals => !jsEq left right
    | .gt => jsLt right left
    | .gte => jsLe right left
    | .lt => jsLt left right
    | .lte => jsLe left right
    | _ => false

/-- Parse exactly `n` decimal digits, returning their value and the rest. -/
def parseNDigitsAux : Nat → Nat → List Char → Option (Nat × List Char)
  | 0, acc, l => some (acc, l)
  | n + 1, acc, c :: t =>
    match digitVal? c with
    | some d => parseNDigitsAux n (acc * 10 + d) t
    | none => none
  | _ + 1, _, [] => none

/-- Parse exactly `n` decimal digits. -/
def parseNDigits (n : Nat) (l : List Char) : Option (Nat × List Char) :=
  parseNDigitsAux n 0 l

/-- Gregorian leap-year test. -/
def isLeapYear (y : Nat) : Bool :=
  y % 4 = 0 && (y % 100 ≠ 0 || y % 400 = 0)

/-- Number of days in a month of the proleptic Gregorian calendar. -/
def daysInMonth (y m : Nat) : Nat :=
  if m = 2 then (if isLeapYear y then 29 else 28)
  else if m = 4 ∨ m = 6 ∨ m = 9 ∨ m = 11 then 30
  else 31

/-- Days from the Unix epoch to the given Gregorian civil date
(standard era-based conversion). -/
def daysFromCivil (y m d : Nat) : Int :=
  let yAdj : Int := if m ≤ 2 then (y : Int) - 1 else (y : Int)
  let era : Int := (if 0 ≤ yAdj then yAdj else yAdj - 399) / 400
  let yoe : Nat := (yAdj - era * 400).toNat
  let mp : Nat := if m > 2 then m - 3 else m + 9
  let doy : Nat := (153 * mp + 2) / 5 + d - 1
  let doe : Nat := yoe * 365 + yoe / 4 - yoe / 100 + doy
  era * 146097 + (doe : Int) - 719468

/-- Parse an optional fractional-seconds suffix `.d`, `.dd` or `.ddd`
(milliseconds); absent fraction is zero. -/
def parseMillis : List Char → Option (Nat × List Char)
  | '.' :: t =>
    let p := takeDigits t
    match p.1 with
    | [d1] => some (d1 * 100, p.2)
    | [d1, d2] => some (d1 * 100 + d2 * 10, p.2)
    | [d1, d2, d3] => some (d1 * 100 + d2 * 10 + d3, p.2)
    | _ => none
  | l => some (0, l)

/-- Parse an ISO time of day `HH:MM[:SS[.fff]]` with an optional trailing
`Z`, consuming the whole rest; result in milliseconds from midnight. -/
def parseTimeOfDay (l : List Char) : Option Nat :=
  match parseNDigits 2 l with
  | some (h, ':' :: r1) =>
    match parseNDigits 2 r1 with
    | some (mi, r2) =>
      if h ≤ 23 ∧ mi ≤ 59 then
        match r2 with
        | ':' :: r3 =>
          match parseNDigits 2 r3 with
          | some (s, r4) =>
            match parseMillis r4 with
            | some (ms, r5) =>
              if s ≤ 59 ∧ (r5 = [] ∨ r5 = ['Z']) then
                some (h * 3600000 + mi * 60000 + s * 1000 + ms)
              else none
            | none => none
          | _ => none
        | [] => some (h * 3600000 + mi * 60000)
        | ['Z'] => some (h * 3600000 + mi * 60000)
        | _ => none
      else none
    | _ => none
  | _ => none

/-- Parse an ECMA-262 Date Time String Format value
`YYYY-MM-DD[THH:MM[:SS[.fff]][Z]]`, all times taken as UTC; result is
milliseconds since the Unix epoch. -/
def parseISODate (l : List Char) : Option Int :=
  match parseNDigits 4 l with
  | some (y, '-' :: r1) =>
    match parseNDigits 2 r1 with
    | some (m, '-' :: r2) =>
      match parseNDigits 2 r2 with
      | some (d, r3) =>
        if 1 ≤ m ∧ m ≤ 12 ∧ 1 ≤ d ∧ d ≤ daysInMonth y m then
          match r3 with
          | [] => some (daysFromCivil y m d * 86400000)
          | 'T' :: r4 =>
            match parseTimeOfDay r4 with
            | some ms => some (daysFromCivil y m d * 86400000 + (ms : Int))
            | none => none
          | _ => none
        else none
      | _ => none
    | _ => none
  | _ => none

/-- Model of JavaScript `Date.parse`: the ECMA-262 Date Time String Format,
NaN on anything else (implementation-defined lenient formats are not
modelled; all times are taken as UTC). -/
def dateParse (s : String) : JSNum :=
  match parseISODate s.toList with
  | some ms => .fin (ms : ℚ)
  | none => .nan

/-- Model of `getDateTimestamp` in `advancedFilters.ts`: a number passes
through; a string is parsed with `Date.parse`, then, on failure, re-parsed
after replacing the first space with `T`; otherwise NaN. -/
def getDateTimestamp : ColumnValue → JSNum
  | .num n => n
  | .str s =>
    let exact := dateParse s
    if !exact.isNaN then exact
    else
      let normalized := dateParse (String.mk (replaceFirstSpace s.toList))
      if !normalized.isNaN then normalized
      else .nan

/-- The numeric coercion of the number branch of `evaluateFilter`:
`typeof rawValue === "number" ? rawValue : Number(rawValue)`. -/
def numericCoerce : ColumnValue → JSNum
  | .num n => n
  | .str s => jsNumberOfString s

/-- The string coercion `String(rawValue ?? "")` of the string branch of
`evaluateFilter`.  Every column whose type is "string" holds a string field,
so the numeric case is unreachable on real columns; it is mapped to a fixed
string to keep the function total. -/
def rawStringOf : ColumnValue → String
  | .str s => s
  | .num _ => ""

/-- Model of `evaluateFilter` in `advancedFilters.ts`. -/
def evaluateFilter (q : QueryEvent) (f : FilterCondition) : Bool :=
  let rawValue := columnValue q f.column
  match columnType f.column with
  | .number => compareNumbers (numericCoerce rawValue) (jsNumberOfString f.value) f.operator
  | .datetime => compareNumbers (getDateTimestamp rawValue) (getDateTimestamp (.str f.value)) f.operator
  | .string => compareStrings (rawStringOf rawValue) f.value f.operator

/-- Grab exactly `n` leading decimal-digit characters. -/
def grabDigits : Nat → List Char → Option (List Char × List Char)
  | 0, l => some ([], l)
  | n + 1, c :: t =>
    if (digitVal? c).isSome then (grabDigits n t).map (fun p => (c :: p.1, p.2))
    else none
  | _ + 1, [] => none

/-- Modelled from the spec: the strict leading pattern
`YYYY-MM-DD[T or space]HH:MM:SS[.fff]` of the spec's datetime coercion
strategy (a), which is absent from `getDateTimestamp` in
`advancedFilters.ts`; on success the matched prefix is returned with the
separator normalized to `T`. -/
def strictMatch (l : List Char) : Option (List Char) :=
  match grabDigits 4 l with
  | some (y, '-' :: r1) =>
    match grabDigits 2 r1 with
    | some (mo, '-' :: r2) =>
      match grabDigits 2 r2 with
      | some (dy, sep :: r3) =>
        if sep = 'T' ∨ sep = ' ' then
          match grabDigits 2 r3 with
          | some (h, ':' :: r4) =>
            match grabDigits 2 r4 with
            | some (mi, ':' :: r5) =>
              match grabDigits 2 r5 with
              | some (se, r6) =>
                let core := y ++ '-' :: mo ++ '-' :: dy ++ 'T' :: h ++ ':' :: mi ++ ':' :: se
                match r6 with
                | '.' :: r7 =>
                  let sp := r7.span (fun c => (digitVal? c).isSome)
                  if sp.1.isEmpty then some core
                  else some (core ++ '.' :: sp.1.take 3)
                | _ => some core
              | _ => none
            | _ => none
          | _ => none
        else none
      | _ => none
    | _ => none
  | _ => none

/-- Modelled from the spec: the datetime coercion as the spec words it —
strategy (a) strict pattern match extracting the matched prefix, then (b)
generic date parsing of the raw string, then (c) generic date parsing after
replacing the first space with `T`.  The code's `getDateTimestamp` lacks
strategy (a). -/
def getDateTimestampSpec : ColumnValue → JSNum
  | .num n => n
  | .str s =>
    let fromPattern : JSNum :=
      match strictMatch s.toList with
      | some p => dateParse (String.mk p)
      | none => .nan
    if !fromPattern.isNaN then fromPattern
    else
      let exact := dateParse s
      if !exact.isNaN then exact
      else
        let normalized := dateParse (String.mk (replaceFirstSpace s.toList))
        if !normalized.isNaN then normalized
        else .nan

/-- The buffer capacity `MAX_QUERY_BUFFER` of `types.ts`. -/
def MAX_QUERY_BUFFER : Nat := 5000

/-- The `query-event` listener body of App: push the event, then, if the
length exceeds `MAX_QUERY_BUFFER`, splice the overflow off the head in a
single batch (`draft.splice(0, draft.length - MAX_QUERY_BUFFER)`). -/
def appendEvent (buf : List QueryEvent) (e : QueryEvent) : List QueryEvent :=
  let d := buf ++ [e]
  if d.length > MAX_QUERY_BUFFER then d.drop (d.length - MAX_QUERY_BUFFER) else d

/-- The tri-state auto-scroll mode of App. -/
inductive ScrollMode where
  | on
  | off
  | smart
  deriving DecidableEq, Repr

/-- Serialization of the scroll mode, as stored by the `auto-scroll`
persistence effect (`String(autoScroll())`) and as passed to child
components. -/
def modeToString : ScrollMode → String
  | .on => "on"
  | .off => "off"
  | .smart => "smart"

/-- The initializer of the `autoScroll` signal: re-reads the persisted
`auto-scroll` preference, accepting the three mode strings, mapping the
legacy value "false" to off, and defaulting to smart. -/
def loadAutoScroll : Option String → ScrollMode
  | some v =>
    if v = "on" then .on
    else if v = "off" then .off
    else if v = "smart" then .smart
    else if v = "false" then .off
    else .smart
  | none => .smart

/-- The `onToggleAutoScroll` update of App:
`s === "smart" ? "on" : s === "on" ? "off" : "smart"`. -/
def toggleAutoScroll : ScrollMode → ScrollMode
  | .smart => .on
  | .on => .off
  | .off => .smart

/-- The reactive App state the engine claims range over: the event buffer
(`queries`), the selection (`selectedId`), the free-text filter, the
structured filter set, the scroll mode and the deduplication flag. -/
structure AppState where
  queries : List QueryEvent
  selectedId : Option String
  filterText : String
  advancedFilters : List FilterCondition
  autoScroll : ScrollMode
  deduplicateRepeats : Bool
  deriving DecidableEq, Repr

/-- Delivery of one `query-event` push: only the buffer changes. -/
def handleQueryEvent (s : AppState) (e : QueryEvent) : AppState :=
  { s with queries := appendEvent s.queries e }

/-- The `handleClear` action of App: empty the buffer and null the
selection identifier. -/
def handleClear (s : AppState) : AppState :=
  { s with queries := [], selectedId := none }

/-- The `selectedQuery` accessor of App: resolve the selection identifier by
lookup against the full (unfiltered) buffer;
`queries.find((q) => q.id === selectedId()) ?? null`. -/
def selectedQuery (s : AppState) : Option QueryEvent :=
  s.queries.find? (fun q => s.selectedId = some q.id)

/-- The free-text step of `filteredQueries`: with a non-empty (lower-cased)
needle, the event passes iff the needle occurs in one of five lower-cased
fields; an empty needle filters nothing. -/
def textFilterPass (filterText : String) (q : QueryEvent) : Bool :=
  let filter := lcChars filterText
  if !filter.isEmpty then
    seqHas filter (lcChars q.sql_text) ||
    seqHas filter (lcChars q.current_statement) ||
    seqHas filter (lcChars q.database_name) ||
    seqHas filter (lcChars q.login_name) ||
    seqHas filter (lcChars q.program_name)
  else true

/-- The structured step of `filteredQueries`: when the filter set is
non-empty, every condition must evaluate true. -/
def advancedFilterPass (advFilters : List FilterCondition) (q : QueryEvent) : Bool :=
  if advFilters.length > 0 then advFilters.all (fun f => evaluateFilter q f)
  else true

/-- JavaScript `Array.prototype.filter` with an index-aware callback (the
callback also closes over the original, unmutated array). -/
def jsFilterIdx (f : Nat → QueryEvent → Bool) : Nat → List QueryEvent → List QueryEvent
  | _, [] => []
  | i, x :: xs =>
    if f i x then x :: jsFilterIdx f (i + 1) xs else jsFilterIdx f (i + 1) xs

/-- The dedup step of `filteredQueries` as the code writes it:
`result.filter((q, i, arr) => i === 0 || q.sql_text !== arr[i - 1].sql_text)`. -/
def dedupCode (arr : List QueryEvent) : List QueryEvent :=
  jsFilterIdx
    (fun i q =>
      i = 0 ||
        match arr[i - 1]? with
        | some p => q.sql_text ≠ p.sql_text
        | none => true)
    0 arr

/-- The projection pipeline `filteredQueries` of App: text filter AND
structured filter over the buffer in order, then the dedup step when the
flag is set. -/
def filteredQueries (s : AppState) : List QueryEvent :=
  let result := s.queries.filter
    (fun q => textFilterPass s.filterText q && advancedFilterPass s.advancedFilters q)
  if s.deduplicateRepeats then dedupCode result else result

/-- Modelled from the spec: deduplication described by §4.3 step 3 — scan in
order and drop an event whose full SQL text equals the SQL text of the
immediately preceding surviving event; the first event is always kept.
`dedupSpecGo last l` processes `l` with `last` the last surviving event. -/
def dedupSpecGo (last : QueryEvent) : List QueryEvent → List QueryEvent
  | [] => []
  | y :: ys =>
    if y.sql_text = last.sql_text then dedupSpecGo last ys
    else y :: dedupSpecGo y ys

/-- Modelled from the spec: the whole spec-worded deduplication pass. -/
def dedupSpec : List QueryEvent → List QueryEvent
  | [] => []
  | x :: xs => x :: dedupSpecGo x xs

/-- Intermediate form of the code's dedup step: drop an event whose SQL text
equals that of its immediate predecessor in the input (the predecessor
advances on every element, kept or dropped). -/
def dedupAdjGo (prev : QueryEvent) : List QueryEvent → List QueryEvent
  | [] => []
  | y :: ys =>
    if y.sql_text = prev.sql_text then dedupAdjGo y ys
    else y :: dedupAdjGo y ys

/-- Intermediate form of the code's dedup step, whole pass. -/
def dedupAdj : List QueryEvent → List QueryEvent
  | [] => []
  | x :: xs => x :: dedupAdjGo x xs

/-- The auto-follow guard of the `createEffect` in `QueryFeed.tsx`
(`if (props.autoScroll && containerRef)`): the `autoScroll` prop is tested
for JavaScript truthiness; for a string prop that is non-emptiness. -/
def queryFeedAutoFollowProp (autoScrollProp : String) : Bool :=
  autoScrollProp ≠ ""

/-- Whether a growth of the visible list makes the feed scroll to the
bottom, per mode: App passes the mode string itself as the `autoScroll` prop
(`autoScroll={autoScroll()}` in `types.ts`), so the guard sees the string
form of the mode. -/
def appAutoFollow (m : ScrollMode) : Bool :=
  queryFeedAutoFollowProp (modeToString m)

/-- A baseline event used to build concrete scenario inputs. -/
def baseEvent : QueryEvent :=
  { id := "e1", session_id := .fin 51, start_time := "2024-01-01 10:00:00.123",
    event_name := "batch completed", database_name := "Orders",
    cpu_time := .fin 10, elapsed_time := .fin 5, physical_reads := .fin 0,
    writes := .fin 0, logical_reads := .fin 100, row_count := .fin 1,
    sql_text := "SELECT 1", current_statement := "", login_name := "sa",
    host_name := "host", program_name := "app", captured_at := "2024-01-01T10:00:01",
    event_status := "completed" }

/-- Event number `n` of the scenario A stream: distinct ids `0..5000`. -/
def mkEv (n : Nat) : QueryEvent :=
  { baseEvent with id := toString n }

/-- Event with a given id and SQL text, for the dedup scenarios. -/
def mkSqlEv (i : Nat) (s : String) : QueryEvent :=
  { baseEvent with id := toString i, sql_text := s }

/-- The scenario B state: three buffered events with SQL texts
`SELECT 1`, `SELECT 1`, `SELECT 2`, dedup enabled and no filters. -/
def stateB : AppState :=
  { queries := [mkSqlEv 1 "SELECT 1", mkSqlEv 2 "SELECT 1", mkSqlEv 3 "SELECT 2"],
    selectedId := none, filterText := "", advancedFilters := [],
    autoScroll := .smart, deduplicateRepeats := true }

/-- A number condition whose literal parses to positive infinity. -/
def condInfinityLt : FilterCondition :=
  { column := .elapsed_time, operator := .lt, value := "Infinity" }

/-- A number condition whose literal parses to NaN. -/
def condNanGt : FilterCondition :=
  { column := .elapsed_time, operator := .gt, value := "abc" }

/-- A string-column condition carrying an operator outside the string
operator set. -/
def condStringGt : FilterCondition :=
  { column := .sql_text, operator := .gt, value := "x" }

/-- The scenario E condition `{column: start_time, operator: gte,
value: "2024-01-01"}`. -/
def condStartGte : FilterCondition :=
  { column := .start_time, operator := .gte, value := "2024-01-01" }

/-- An event whose start time carries trailing garbage after a full
`YYYY-MM-DDTHH:MM:SS` stamp: the spec's strict-pattern strategy (a) accepts
its prefix while generic parsing of the whole string fails. -/
def eventGarbageTime : QueryEvent :=
  { baseEvent with start_time := "2024-01-01T10:00:00abc" }

/-- A datetime condition used against `eventGarbageTime`. -/
def condAfter2020 : FilterCondition :=
  { column := .start_time, operator := .gte, value := "2020-01-01" }

/-- Modelled from the spec: the datetime branch of `evaluateFilter` as the
claim words it, with both sides coerced by the spec's three-strategy
coercion (including the strict-pattern strategy absent from the code). -/
def evaluateFilterSpecDatetime (q : QueryEvent) (f : FilterCondition) : Bool :=
  compareNumbers
    (getDateTimestampSpec (columnValue q f.column))
    (getDateTimestampSpec (.str f.value))
    f.operator

/-! ### Helper lemmas -/

theorem foldl_appendEvent (l : List QueryEvent) :
    l.foldl appendEvent [] = l.drop (l.length - MAX_QUERY_BUFFER) := by
  induction l using List.reverseRecOn with
  | nil => rfl
  | append_singleton l e ih =>
    rw [List.foldl_append, List.foldl_cons, List.foldl_nil, ih]
    simp only [appendEvent, MAX_QUERY_BUFFER, List.length_append, List.length_cons,
      List.length_nil, List.length_drop]
    by_cases h : l.length < 5000
    · have h0 : l.length - 5000 = 0 := by omega
      rw [h0, List.drop_zero, if_neg (by omega)]
      have h1 : l.length + (0 + 1) - 5000 = 0 := by omega
      rw [h1, List.drop_zero]
    · push_neg at h
      rw [if_pos (by omega)]
      have h2 : l.length - (l.length - 5000) + (0 + 1) - 5000 = 1 := by omega
      rw [h2, List.drop_append_of_le_length (by rw [List.length_drop]; omega), List.drop_drop]
      have h3 : l.length + (0 + 1) - 5000 = l.length - 5000 + 1 := by omega
      rw [h3, List.drop_append_of_le_length (by omega)]

theorem jsFilterIdx_dedup_aux (arr : List QueryEvent) (xs : List QueryEvent) :
    ∀ (j : Nat) (pe : QueryEvent),
      arr.drop (j + 1) = xs → arr[j]? = some pe →
      jsFilterIdx
        (fun i q =>
          i = 0 ||
            match arr[i - 1]? with
            | some p => q.sql_text ≠ p.sql_text
            | none => true)
        (j + 1) xs = dedupAdjGo pe xs := by
  induction xs with
  | nil => intro j pe _ _; rfl
  | cons y ys ih =>
    intro j pe hdrop hget
    have hy : arr[j + 1]? = some y := by
      have h0 := List.getElem?_drop arr (j + 1) 0
      rw [hdrop] at h0
      simpa using h0.symm
    have hdrop2 : arr.drop (j + 2) = ys := by
      have h1 : arr.drop (j + 2) = (arr.drop (j + 1)).drop 1 := by
        rw [List.drop_drop]
      rw [h1, hdrop, List.drop_one, List.tail_cons]
    simp only [jsFilterIdx, dedupAdjGo, Nat.add_sub_cancel, hget, Nat.succ_ne_zero,
      decide_False, Bool.false_or]
    by_cases hsql : y.sql_text = pe.sql_text
    · rw [if_neg (by simp [hsql]), if_pos hsql]
      exact ih (j + 1) y hdrop2 hy
    · rw [if_pos (by simp [hsql]), if_neg hsql]
      rw [ih (j + 1) y hdrop2 hy]

theorem dedupCode_eq_dedupAdj (arr : List QueryEvent) : dedupCode arr = dedupAdj arr := by
  cases arr with
  | nil => rfl
  | cons x xs =>
    simp only [dedupCode, dedupAdj, jsFilterIdx, decide_True, Bool.true_or, if_pos]
    rw [jsFilterIdx_dedup_aux (x :: xs) xs 0 x rfl (by simp)]

theorem dedupAdjGo_sql_congr (xs : List QueryEvent) :
    ∀ p q : QueryEvent, p.sql_text = q.sql_text → dedupAdjGo p xs = dedupAdjGo q xs := by
  cases xs with
  | nil => intro p q _; rfl
  | cons y ys =>
    intro p q h
    simp only [dedupAdjGo, h]

theorem dedupAdjGo_eq_dedupSpecGo (xs : List QueryEvent) :
    ∀ prev : QueryEvent, dedupAdjGo prev xs = dedupSpecGo prev xs := by
  induction xs with
  | nil => intro prev; rfl
  | cons y ys ih =>
    intro prev
    simp only [dedupAdjGo, dedupSpecGo]
    by_cases h : y.sql_text = prev.sql_text
    · rw [if_pos h, if_pos h, dedupAdjGo_sql_congr ys y prev h, ih prev]
    · rw [if_neg h, if_neg h, ih y]

theorem dedupCode_eq_dedupSpec (arr : List QueryEvent) : dedupCode arr = dedupSpec arr := by
  rw [dedupCode_eq_dedupAdj]
  cases arr with
  | nil => rfl
  | cons x xs =>
    simp only [dedupAdj, dedupSpec]
    rw [dedupAdjGo_eq_dedupSpecGo xs x]

theorem chain'_dedupSpecGo (ys : List QueryEvent) :
    ∀ prev : QueryEvent,
      List.Chain' (fun a b => a.sql_text ≠ b.sql_text) (prev :: dedupSpecGo prev ys) := by
  induction ys with
  | nil => intro prev; simp [dedupSpecGo]
  | cons y ys ih =>
    intro prev
    simp only [dedupSpecGo]
    by_cases h : y.sql_text = prev.sql_text
    · rw [if_pos h]; exact ih prev
    · rw [if_neg h, List.chain'_cons]
      exact ⟨fun he => h he.symm, ih y⟩

theorem dedupSpecGo_of_chain (ys : List QueryEvent) :
    ∀ prev : QueryEvent,
      List.Chain' (fun a b => a.sql_text ≠ b.sql_text) (prev :: ys) →
      dedupSpecGo prev ys = ys := by
  induction ys with
  | nil => intro prev _; rfl
  | cons y ys ih =>
    intro prev h
    rw [List.chain'_cons] at h
    simp only [dedupSpecGo]
    rw [if_neg (fun he => h.1 he.symm), ih y h.2]

theorem dedupSpec_idem (l : List QueryEvent) : dedupSpec (dedupSpec l) = dedupSpec l := by
  cases l with
  | nil => rfl
  | cons x xs =>
    simp only [dedupSpec]
    rw [dedupSpecGo_of_chain _ x (chain'_dedupSpecGo xs x)]

/-! ### Claim theorems -/

/-- C1: for every sequence of events delivered to the query-event append
handler starting from an empty buffer, the buffer afterwards has length
`min N 5000` and holds exactly the last `min N 5000` delivered events in
arrival order; in particular appending the 5001 events with ids `0..5000`
leaves exactly the events with ids `1..5000`. -/
theorem buffer_bounded_fifo :
    (∀ evs : List QueryEvent,
        (evs.foldl appendEvent []).length = min evs.length MAX_QUERY_BUFFER ∧
        evs.foldl appendEvent [] = evs.drop (evs.length - MAX_QUERY_BUFFER)) ∧
    ((List.range 5001).map mkEv).foldl appendEvent [] = (List.range' 1 5000).map mkEv := by
  constructor
  · intro evs
    refine ⟨?_, foldl_appendEvent evs⟩
    rw [foldl_appendEvent, List.length_drop]
    omega
  · rw [foldl_appendEvent]
    have hr : List.range 5001 = List.range 1 ++ (List.range 5000).map (fun x => 1 + x) := by
      rw [show (5001 : Nat) = 1 + 5000 by norm_num, List.range_add]
    have h1 : List.range 1 = [0] := by decide
    rw [hr, h1]
    simp [MAX_QUERY_BUFFER, List.range'_eq_map_range, List.map_map]

/-- C2: with deduplication enabled, the projection's dedup step keeps an
event iff it is the first of the post-filter sequence or its full
`sql_text` differs from the previous surviving event's `sql_text`: the
code's comparison against the pre-dedup neighbour `arr[i-1]` coincides with
the spec's comparison against the previous surviving event, and scenario B
projects `[SELECT 1, SELECT 1, SELECT 2]` to `[SELECT 1, SELECT 2]`. -/
theorem dedup_matches_surviving_semantics :
    (∀ arr : List QueryEvent, dedupCode arr = dedupSpec arr) ∧
    filteredQueries stateB = [mkSqlEv 1 "SELECT 1", mkSqlEv 3 "SELECT 2"] := by
  exact ⟨dedupCode_eq_dedupSpec, by decide⟩

/-- C9: the deduplication step is idempotent: applying the
consecutive-duplicate filter to its own output yields the same sequence. -/
theorem dedup_idempotent :
    ∀ l : List QueryEvent, dedupCode (dedupCode l) = dedupCode l := by
  intro l
  simp only [dedupCode_eq_dedupSpec]
  exact dedupSpec_idem l

/-- C6: clearing yields an empty buffer and a cleared selection identifier,
so selection resolution yields none (dismissing the detail view), while the
filter text, the filter set, the scroll mode and the dedup flag are
untouched. -/
theorem clear_empties_and_unselects :
    ∀ s : AppState,
      (handleClear s).queries = [] ∧
      (handleClear s).selectedId = none ∧
      selectedQuery (handleClear s) = none ∧
      (handleClear s).filterText = s.filterText ∧
      (handleClear s).advancedFilters = s.advancedFilters ∧
      (handleClear s).autoScroll = s.autoScroll ∧
      (handleClear s).deduplicateRepeats = s.deduplicateRepeats := by
  intro s
  exact ⟨rfl, rfl, rfl, rfl, rfl, rfl, rfl⟩

/-- C8: the scroll-mode toggle is the closed rotation
smart → on → off → smart, three applications are the identity, the mode is
untouched by event appends and clears, and it round-trips through the
persisted preference string. -/
theorem scroll_mode_rotation :
    toggleAutoScroll .smart = .on ∧
    toggleAutoScroll .on = .off ∧
    toggleAutoScroll .off = .smart ∧
    (∀ m, toggleAutoScroll (toggleAutoScroll (toggleAutoScroll m)) = m) ∧
    (∀ (s : AppState) (e : QueryEvent), (handleQueryEvent s e).autoScroll = s.autoScroll) ∧
    (∀ s : AppState, (handleClear s).autoScroll = s.autoScroll) ∧
    (∀ m, loadAutoScroll (some (modeToString m)) = m) := by
  refine ⟨rfl, rfl, rfl, fun m => by cases m <;> rfl, fun s e => rfl, fun s => rfl,
    fun m => by cases m <;> decide⟩

/-- C5: contrary to the claim, the auto-follow guard of the query feed fires
in every scroll mode, including "off": App passes the mode string itself as
the `autoScroll` prop and the guard tests it for JavaScript truthiness, so
the non-empty string "off" also triggers the scroll. -/
theorem queryfeed_scrolls_in_every_mode :
    appAutoFollow .on = true ∧ appAutoFollow .smart = true ∧ appAutoFollow .off = true := by
  decide

/-- C3 counterexample: a number condition whose literal "Infinity" fails to
parse to a finite number nonetheless evaluates to true under the `lt`
operator, because the code only fails closed on NaN and compares infinities
numerically. -/
theorem number_filter_infinite_literal_not_fail_closed :
    jsNumberOfString "Infinity" = JSNum.posInf ∧
    evaluateFilter baseEvent condInfinityLt = true := by
  decide

/-- C3 (amended): for every event and number-typed condition, if either side
of the numeric coercion is NaN — the field value is NaN, or the literal does
not parse to a number at all — then `evaluateFilter` returns false for every
operator (evaluation is total, so it never throws); literals parsing to
infinities are compared as infinities rather than rejected. -/
theorem number_filter_nan_fail_closed :
    ∀ (q : QueryEvent) (f : FilterCondition),
      columnType f.column = .number →
      (numericCoerce (columnValue q f.column)).isNaN = true ∨
        (jsNumberOfString f.value).isNaN = true →
      evaluateFilter q f = false := by
  intro q f hty hnan
  simp only [evaluateFilter, hty]
  unfold compareNumbers
  rcases hnan with h | h <;> simp [h]

/-- Witness for C3: a concrete event and condition with an unparseable
literal satisfy the hypotheses, and the filter evaluates to false there. -/
theorem number_filter_nan_fail_closed_witness :
    (columnType condNanGt.column = .number ∧
      (jsNumberOfString condNanGt.value).isNaN = true) ∧
    evaluateFilter baseEvent condNanGt = false :=
  ⟨⟨rfl, by decide⟩,
    number_filter_nan_fail_closed baseEvent condNanGt rfl (Or.inr (by decide))⟩

/-- C4 counterexample: on the field value "2024-01-01T10:00:00abc" the
spec's coercion (whose first strategy extracts the strictly matched prefix)
yields a valid timestamp and the claimed semantics evaluates the `gte`
condition true, while the code's `getDateTimestamp` (which has no
strict-pattern strategy) yields NaN and the condition evaluates false. -/
theorem datetime_strict_pattern_strategy_absent :
    evaluateFilterSpecDatetime eventGarbageTime condAfter2020 = true ∧
    getDateTimestamp (.str eventGarbageTime.start_time) = JSNum.nan ∧
    evaluateFilter eventGarbageTime condAfter2020 = false := by
  decide

/-- C4 (amended): a datetime condition compares the two sides coerced by
`getDateTimestamp`, which tries only generic date parsing of the raw string
and then generic date parsing after replacing the first space with "T"
(there is no strict-pattern strategy); if either coercion yields NaN the
condition evaluates false; and scenario E — `gte "2024-01-01"` against
`start_time = "2024-01-01 10:00:00.123"` — evaluates true via the
space-to-"T" fallback path (generic parsing of the raw field fails). -/
theorem datetime_filter_coercion :
    (∀ (q : QueryEvent) (f : FilterCondition),
        columnType f.column = .datetime →
        evaluateFilter q f =
          compareNumbers (getDateTimestamp (columnValue q f.column))
            (getDateTimestamp (.str f.value)) f.operator) ∧
    (∀ (q : QueryEvent) (f : FilterCondition),
        columnType f.column = .datetime →
        (getDateTimestamp (columnValue q f.column)).isNaN = true ∨
          (getDateTimestamp (.str f.value)).isNaN = true →
        evaluateFilter q f = false) ∧
    dateParse condStartGte.value ≠ JSNum.nan ∧
    dateParse baseEvent.start_time = JSNum.nan ∧
    dateParse (String.mk (replaceFirstSpace baseEvent.start_time.toList)) ≠ JSNum.nan ∧
    evaluateFilter baseEvent condStartGte = true := by
  refine ⟨?_, ?_, by decide, by decide, by decide, by decide⟩
  · intro q f hty
    simp only [evaluateFilter, hty]
  · intro q f hty hnan
    simp only [evaluateFilter, hty]
    unfold compareNumbers
    rcases hnan with h | h <;> simp [h]

/-- Witness for C4: the scenario E condition is datetime-typed and the
datetime branch shape holds for it at a concrete event. -/
theorem datetime_filter_coercion_witness :
    columnType condStartGte.column = .datetime ∧
    evaluateFilter baseEvent condStartGte =
      compareNumbers (getDateTimestamp (columnValue baseEvent condStartGte.column))
        (getDateTimestamp (.str condStartGte.value)) condStartGte.operator :=
  ⟨rfl, datetime_filter_coercion.1 baseEvent condStartGte rfl⟩

/-- C7: the free-text predicate accepts every event when the needle is
empty, and otherwise accepts an event iff the lower-cased needle occurs in
at least one of the five lower-cased fields: full SQL text, current
statement, database name, login name, program name. -/
theorem text_filter_iff :
    ∀ (needle : String) (q : QueryEvent),
      textFilterPass needle q = true ↔
        (needle = "" ∨
          ∃ field ∈ [q.sql_text, q.current_statement, q.database_name,
              q.login_name, q.program_name],
            seqHas (lcChars needle) (lcChars field) = true) := by
  intro needle q
  by_cases h : needle = ""
  · subst h
    simp [textFilterPass, lcChars]
  · have hne : ¬(lcChars needle).isEmpty = true := by
      rw [List.isEmpty_iff]
      simp only [lcChars, List.map_eq_nil_iff]
      intro hnil
      exact h (String.ext hnil)
    simp only [textFilterPass, Bool.not_eq_true'] at *
    rw [if_pos (by simp [Bool.not_eq_true'] at hne ⊢; exact hne)]
    simp [h, Bool.or_eq_true]
    tauto

/-- C10: for every event and condition whose operator lies outside the
operator set of the condition's column type, evaluation falls through the
comparison's default branch and returns false (and, being total, never
throws). -/
theorem unsupported_operator_fail_closed :
    ∀ (q : QueryEvent) (f : FilterCondition),
      isOperatorSupported (columnType f.column) f.operator = false →
      evaluateFilter q f = false := by
  intro q f h
  obtain ⟨col, op, v⟩ := f
  rcases hty : columnType col with _ | _ | _ <;> cases op <;>
    simp_all [evaluateFilter, isOperatorSupported, getOperatorOptions, stringOperators,
      comparableOperators, compareNumbers, compareStrings]

/-- Witness for C10: a `gt` operator on the string-typed `sql_text` column
is unsupported, and a concrete evaluation returns false. -/
theorem unsupported_operator_fail_closed_witness :
    isOperatorSupported (columnType condStringGt.column) condStringGt.operator = false ∧
    evaluateFilter baseEvent condStringGt = false :=
  ⟨by decide, unsupported_operator_fail_closed baseEvent condStringGt (by decide)⟩

end SqlProfiler
